import Mathlib

/-!
Verification development for the cloudpix-server share-capability subsystem.

Shallow embedding conventions:
* Timestamps are `Int` milliseconds since the epoch (the value of
  `Date.prototype.getTime`); days and hours are converted with the usual
  86400000 / 3600000 millisecond factors (UTC arithmetic, as in
  `Date.setDate` without calendar anomalies).
* The optional `expirationDays` request field is `Option Int`; JavaScript
  falsiness of a number (`!expirationDays`) holds for `undefined` and `0`,
  so it is modelled as `none` or `some 0`.
* The Cosmos document store is modelled as an explicit `Store` value holding
  the list of share-link records and file records, threaded through each
  operation; a fallible operation returns `Except String` carrying the exact
  `Error` message the TypeScript code throws.
* Store-level infrastructure failures that the claims depend on are injected
  through explicit parameters (`incrementFails`, `failingLinkIds`): they mark
  the store calls that throw, exactly where the corresponding `await` sits in
  the source.
-/

namespace CloudPix

/-- Milliseconds per day, the step of `Date.setDate(getDate() + d)`. -/
def msPerDay : Int := 86400000

/-- Milliseconds per hour, the divisor in `getFileByShareLink`. -/
def msPerHour : Int := 3600000

/-- Whether a character list starts with a pattern. -/
def listStartsWith : List Char → List Char → Bool
  | _, [] => true
  | [], _ :: _ => false
  | c :: cs, p :: ps => decide (c = p) && listStartsWith cs ps

/-- Whether a pattern occurs somewhere in a character list. -/
def listContainsSub : List Char → List Char → Bool
  | [], pat => pat.isEmpty
  | c :: cs, pat => listStartsWith (c :: cs) pat || listContainsSub cs pat

/-- JavaScript `String.prototype.includes`: `pat` occurs in `s`. -/
def strIncludes (s pat : String) : Bool :=
  listContainsSub s.toList pat.toList

/-- `IShareLink` from `src/models/ShareLink.ts`.  `expiryDate` is kept as
`Option Int` because `isShareLinkValid` guards on its truthiness before
comparing (`if (shareLink.expiryDate && ...)`); every record built by
`createShareLink` carries `some` value. -/
structure ShareLink where
  linkId : String
  fileId : String
  userId : String
  expiryDate : Option Int
  accessCount : Nat
  createdDate : Int
  isRevoked : Bool
  ttl : Option Int
  deriving Repr, DecidableEq

/-- `IFile` fields used by the share subsystem (`src/models/File.ts` record
as produced by `uploadFile` in the file service). -/
structure FileRec where
  fileId : String
  userId : String
  fileName : String
  blobUrl : String
  fileSize : Nat
  contentType : String
  uploadDate : Int
  status : String
  deriving Repr, DecidableEq

/-- The document store: the ShareLinks container and the Files container. -/
structure Store where
  links : List ShareLink
  files : List FileRec
  deriving Repr, DecidableEq

/-- `calculateExpiryDate` from `src/services/ShareLinkService.ts` lines
21-29: falsy `expirationDays` (absent or zero) means never expire
(`undefined`); otherwise now plus that many days. -/
def calculateExpiryDate (expirationDays : Option Int) (now : Int) :
    Option Int :=
  match expirationDays with
  | none => none
  | some d => if d = 0 then none else some (now + d * msPerDay)

/-- `calculateTTL` from `src/services/ShareLinkService.ts` lines 34-44:
`Math.floor((expiry - now) / 1000)` seconds if positive, else `undefined`.
`Int.fdiv` is floor division, matching `Math.floor` on the quotient. -/
def calculateTTL (expiryDate : Option Int) (now : Int) : Option Int :=
  match expiryDate with
  | none => none
  | some e =>
    let diffInSeconds := Int.fdiv (e - now) 1000
    if diffInSeconds > 0 then some diffInSeconds else none

/-- The record constructed by `createShareLink`
(`src/services/ShareLinkService.ts` lines 68-81); the fresh uuid is passed
in as `linkId`.  Note `expiryDate || new Date()`: when `calculateExpiryDate`
returns `undefined` the stored expiry date is the creation instant. -/
def createShareLinkRecord (linkId fileId userId : String)
    (expirationDays : Option Int) (now : Int) : ShareLink :=
  let expiryDate := calculateExpiryDate expirationDays now
  let ttl := calculateTTL expiryDate now
  { linkId := linkId
    fileId := fileId
    userId := userId
    expiryDate := some (expiryDate.getD now)
    accessCount := 0
    createdDate := now
    isRevoked := false
    ttl := ttl }

/-- `isShareLinkValid` from `src/repos/CosmosShareLinkRepo.ts` lines
235-245.  The source reads the clock (`new Date()`) inside the function; the
embedding passes that instant as the explicit `now` argument.  Invalid iff
revoked, or the expiry date is present and strictly before `now`. -/
def isShareLinkValid (sl : ShareLink) (now : Int) : Bool :=
  if sl.isRevoked then false
  else
    match sl.expiryDate with
    | some e => !(decide (e < now))
    | none => true

/-- The spec's own validity predicate, stated from its words for comparison
(spec section 4.1): valid iff not revoked and (`expiresAt` is "never", or
`now < expiresAt`). -/
def specValidate (revoked : Bool) (expiresAt : Option Int) (now : Int) :
    Bool :=
  !revoked &&
    (match expiresAt with
     | none => true
     | some e => decide (now < e))

example :
    isShareLinkValid (createShareLinkRecord "l" "f" "u" none 1000) 1001 =
      false := by decide

example :
    isShareLinkValid (createShareLinkRecord "l" "f" "u" (some 1) 0)
      86400000 = true := by decide

/-- `getShareLinkById` (`CosmosShareLinkRepo.ts` lines 34-65): query the
container by `linkId` and take the first result, `null` when absent. -/
def getShareLinkById (s : Store) (linkId : String) : Option ShareLink :=
  s.links.find? (fun l => l.linkId = linkId)

/-- `getFileById` from `CosmosFileRepo.ts` (in the sources as part of the
concatenated `src/src/models/User.ts`, lines 178-203): query the Files
container by `fileId` and take the first result, `null` when absent. -/
def getFileById (s : Store) (fileId : String) : Option FileRec :=
  s.files.find? (fun f => f.fileId = fileId)

/-- The `delete` of `hardDeleteFile`: the item fetched by `getFileById`
(the first record with the given `fileId`) is removed; when no record
matches, the list is unchanged. -/
def eraseFile : List FileRec → String → List FileRec
  | [], _ => []
  | f :: rest, fileId =>
    if f.fileId = fileId then rest else f :: eraseFile rest fileId

/-- `hardDeleteFile` from `CosmosFileRepo.ts` (in the sources as part of
the concatenated `src/src/models/User.ts`, lines 285-303): fetch the record
via `getFileById`; silently return when absent; otherwise delete that one
fetched item by its store id. -/
def hardDeleteFile (s : Store) (fileId : String) : Store :=
  { s with files := eraseFile s.files fileId }

/-- The `replace` of `updateShareLink` (`CosmosShareLinkRepo.ts` lines
106-135): the item fetched by `getShareLinkById` (the first record with the
given `linkId`) is replaced by the new record. -/
def replaceLink : List ShareLink → ShareLink → List ShareLink
  | [], _ => []
  | l :: rest, nl =>
    if l.linkId = nl.linkId then nl :: rest else l :: replaceLink rest nl

/-- The `delete` of `deleteShareLinksByFileId`'s loop body: the item fetched
by `getShareLinkById` (the first record with the given `linkId`) is removed;
when no record matches, nothing happens (the loop skips absent links). -/
def eraseLink : List ShareLink → String → List ShareLink
  | [], _ => []
  | l :: rest, linkId =>
    if l.linkId = linkId then rest else l :: eraseLink rest linkId

/-- `revokeShareLink` from `CosmosShareLinkRepo.ts` lines 140-153: fetch,
set `isRevoked = true`, replace; every failure is rethrown as
`'Failed to revoke share link'`. -/
def repoRevokeShareLink (s : Store) (linkId : String) :
    Except String Store :=
  match getShareLinkById s linkId with
  | none => .error "Failed to revoke share link"
  | some sl =>
    .ok { s with links := replaceLink s.links { sl with isRevoked := true } }

/-- `incrementAccessCount` from `CosmosShareLinkRepo.ts` lines 158-171:
fetch, `accessCount = (accessCount || 0) + 1`, replace; every failure is
rethrown as `'Failed to increment access count'`. -/
def incrementAccessCount (s : Store) (linkId : String) :
    Except String Store :=
  match getShareLinkById s linkId with
  | none => .error "Failed to increment access count"
  | some sl =>
    .ok { s with
          links := replaceLink s.links
            { sl with accessCount := sl.accessCount + 1 } }

/-- `getShareLinksByFileId` from `CosmosShareLinkRepo.ts` lines 70-101: the
query selects the records with the given `fileId` AND `isRevoked = false`. -/
def getShareLinksByFileId (s : Store) (fileId : String) : List ShareLink :=
  s.links.filter (fun l => decide (l.fileId = fileId) && !l.isRevoked)

/-- The sequential deletion loop of `deleteShareLinksByFileId`
(`CosmosShareLinkRepo.ts` lines 187-194): each target is re-fetched and
deleted in order.  A store failure on a delete call is injected by listing
that target's `linkId` in `failingLinkIds`; the surrounding `catch` turns it
into `'Failed to delete share links for file'`, abandoning the rest of the
loop with the deletions so far already committed. -/
def cascadeDeleteLoop (links : List ShareLink) (failingLinkIds : List String) :
    List ShareLink → Except String Unit × List ShareLink
  | [] => (.ok (), links)
  | t :: rest =>
    if failingLinkIds.contains t.linkId then
      (.error "Failed to delete share links for file", links)
    else cascadeDeleteLoop (eraseLink links t.linkId) failingLinkIds rest

/-- `deleteShareLinksByFileId` from `CosmosShareLinkRepo.ts` lines 176-199:
enumerate via `getShareLinksByFileId` (unrevoked links only) and delete each
in turn. -/
def deleteShareLinksByFileId (s : Store) (failingLinkIds : List String)
    (fileId : String) : Except String Unit × Store :=
  let targets := getShareLinksByFileId s fileId
  let (r, links) := cascadeDeleteLoop s.links failingLinkIds targets
  (r, { s with links := links })

/-- `deleteFile` from the file service (`ShareLinkService.ts` source lines
452-500): ownership-gated; the blob deletion failure is swallowed with a
warning (no metadata effect, so the blob store is not modelled); a cascade
failure propagates out of the `try` block, so the file record deletion does
not run; on cascade success `hardDeleteFile` removes the record. -/
def deleteFile (s : Store) (failingLinkIds : List String)
    (fileId userId : String) : Except String Unit × Store :=
  match getFileById s fileId with
  | none => (.error "File not found", s)
  | some file =>
    if file.userId = userId then
      let (r, s₁) := deleteShareLinksByFileId s failingLinkIds fileId
      match r with
      | .error e => (.error e, s₁)
      | .ok () => (.ok (), hardDeleteFile s₁ fileId)
    else (.error "Unauthorized access to file", s)

/-- Blob-name extraction of `getFileByShareLink` (`ShareLinkService.ts`
lines 131-140): drop the query string, split on `/`, find the host part
containing `.blob.core.windows.net` (index `-1` when absent, as with
`findIndex`), and join everything after the account and container parts. -/
def extractBlobName (blobUrl : String) : String :=
  let urlWithoutQuery := (blobUrl.splitOn "?").headD ""
  let parts := urlWithoutQuery.splitOn "/"
  let containerIndex : Int :=
    match parts.findIdx? (fun p => strIncludes p ".blob.core.windows.net") with
    | some i => (i : Int)
    | none => -1
  String.intercalate "/" (parts.drop (containerIndex + 2).toNat)

/-- The SAS expiry-hours computation of `getFileByShareLink`
(`ShareLinkService.ts` lines 142-149):
`min(max(1, floor((expiry - now) / 3600000)), 24)`. -/
def sasExpirationHours (expiry now : Int) : Int :=
  min (max 1 (Int.fdiv (expiry - now) msPerHour)) 24

/-- The expiry instant of a SAS credential minted now for `expiresInHours`
hours (`generateBlobSASUrl` in the blob service source:
`expiresOn.setHours(getHours() + expiresInHours)`). -/
def sasExpiresOn (now expiresInHours : Int) : Int :=
  now + expiresInHours * msPerHour

/-- Storage account name, a deployment constant of the blob service
(parsed from the connection string in the source). -/
def accountName : String := "account"

/-- Blob container name (`BLOB_CONTAINER_NAME`, default in the source). -/
def containerName : String := "cloudpix-files"

/-- `generateBlobSASUrl` / `getBlobUrl` from the blob service source: a URL
`https://account.blob.core.windows.net/container/blobName?token`, where the
Azure SDK's signed token is abstracted to its observable content, the
read-only permission and the expiry instant. -/
def generateBlobSASUrl (blobName : String) (expiresInHours now : Int) :
    String :=
  "https://" ++ accountName ++ ".blob.core.windows.net/" ++ containerName ++
    "/" ++ blobName ++ "?sp=r&se=" ++ toString (sasExpiresOn now expiresInHours)

/-- The payload of a successful `getFileByShareLink` (`ShareLinkService.ts`
lines 160-164): the raw file record, the share-link record, and the SAS
download URL. -/
structure ShareAccessResult where
  file : FileRec
  shareLink : ShareLink
  downloadUrl : String
  deriving Repr, DecidableEq

/-- `getFileByShareLink` from `ShareLinkService.ts` lines 106-173.  Steps:
lookup, validity check, file lookup and active check, blob-name extraction,
SAS hours and URL, access-count increment (whose store failure is injected
by `incrementFails` and propagates out of the function), then the payload.
A record with no stored expiry date (unreachable for records built by
`createShareLink`) makes `new Date(undefined)` invalid and SAS generation
fail with the minter's wrapped message. -/
def getFileByShareLink (s : Store) (now : Int) (incrementFails : Bool)
    (linkId : String) : Except String (ShareAccessResult × Store) :=
  match getShareLinkById s linkId with
  | none => .error "Share link not found"
  | some shareLink =>
    if isShareLinkValid shareLink now then
      match getFileById s shareLink.fileId with
      | none => .error "File not found or deleted"
      | some file =>
        if file.status = "active" then
          let blobName := extractBlobName file.blobUrl
          match shareLink.expiryDate with
          | none => .error "Failed to generate blob access URL"
          | some e =>
            let hours := sasExpirationHours e now
            let sasUrl := generateBlobSASUrl blobName hours now
            if incrementFails then
              .error "Failed to increment access count"
            else
              match incrementAccessCount s linkId with
              | .error msg => .error msg
              | .ok s₁ =>
                .ok ({ file := file, shareLink := shareLink,
                       downloadUrl := sasUrl }, s₁)
        else .error "File not found or deleted"
    else .error "Share link is expired or revoked"

/-- `revokeShareLink` from `ShareLinkService.ts` lines 178-210: lookup,
ownership check against the `userId` stored in the link, then the repo
revoke. -/
def revokeShareLink (s : Store) (linkId userId : String) :
    Except String Unit × Store :=
  match getShareLinkById s linkId with
  | none => (.error "Share link not found", s)
  | some sl =>
    if sl.userId = userId then
      match repoRevokeShareLink s linkId with
      | .error e => (.error e, s)
      | .ok s₁ => (.ok (), s₁)
    else (.error "Unauthorized access", s)

/-- `createShareLink` from `ShareLinkService.ts` lines 49-101: file
existence, ownership and active checks, then the record of
`createShareLinkRecord` is persisted (`container.items.create` appends);
the fresh uuid is passed in as `newLinkId`. -/
def serviceCreateShareLink (s : Store) (newLinkId fileId userId : String)
    (expirationDays : Option Int) (now : Int) :
    Except String (ShareLink × Store) :=
  match getFileById s fileId with
  | none => .error "File not found"
  | some file =>
    if file.userId = userId then
      if file.status = "active" then
        let sl := createShareLinkRecord newLinkId fileId userId
          expirationDays now
        .ok (sl, { s with links := s.links ++ [sl] })
      else .error "Cannot share deleted file"
    else .error "Unauthorized access to file"

/-- HTTP status classification of the share-access route
(`ShareRoutes.ts` lines 68-77): `404` for messages containing
`'not found'`, `410 Gone` for `'expired'` or `'revoked'`, else `400`. -/
def shareAccessStatus (msg : String) : Nat :=
  if strIncludes msg "not found" then 404
  else if strIncludes msg "expired" || strIncludes msg "revoked" then 410
  else 400

/-! ### Demonstration fixtures -/

/-- A stored blob URL, in the shape produced by `uploadBlob` (a signed SAS
URL with a one-year token, persisted on the file record). -/
def demoBlobUrl : String :=
  "https://account.blob.core.windows.net/cloudpix-files/u1/f1/pic.jpg?sv=2023&sig=uploadtoken"

/-- An active file owned by `u1`. -/
def demoFile : FileRec :=
  { fileId := "f1", userId := "u1", fileName := "pic.jpg",
    blobUrl := demoBlobUrl, fileSize := 5, contentType := "image/jpeg",
    uploadDate := 0, status := "active" }

/-- A live, unrevoked share link for `demoFile` expiring at 86400000
(one day after creation at 0). -/
def demoLink : ShareLink :=
  { linkId := "l1", fileId := "f1", userId := "u1",
    expiryDate := some 86400000, accessCount := 0, createdDate := 0,
    isRevoked := false, ttl := some 86400 }

/-- A store holding `demoFile` and `demoLink`. -/
def demoStore : Store := { links := [demoLink], files := [demoFile] }

/-- `demoStore` after `demoLink` was revoked. -/
def revokedStore : Store :=
  { links := [{ demoLink with isRevoked := true }], files := [demoFile] }

/-- A store whose only link expired at instant 10. -/
def expiredStore : Store :=
  { links := [{ demoLink with expiryDate := some 10 }], files := [demoFile] }

/-- `demoStore` after one successful access was recorded. -/
def incrementedStore : Store :=
  { links := [{ demoLink with accessCount := 1 }], files := [demoFile] }

/-! ### Claims -/

/-- C1: the claim says a capability created with no duration stores a
far-future/absent "never" sentinel and validates at every later time.  The
code instead stores the creation instant (`expiryDate || new Date()`), so
`isShareLinkValid` reports the link expired at every strictly later
instant.  This theorem evaluates the code at the failing input. -/
theorem never_duration_link_invalid_after_creation
    (linkId fileId userId : String) (now t : Int) (h : now < t) :
    (createShareLinkRecord linkId fileId userId none now).expiryDate =
        some now ∧
      isShareLinkValid (createShareLinkRecord linkId fileId userId none now)
        t = false := by
  refine ⟨rfl, ?_⟩
  simp [createShareLinkRecord, calculateExpiryDate, calculateTTL,
    isShareLinkValid, h]

/-- Witness for C1: created at instant 0 with no duration, invalid at 1. -/
theorem never_duration_link_invalid_after_creation_witness :
    (createShareLinkRecord "l" "f" "u" none 0).expiryDate = some 0 ∧
      isShareLinkValid (createShareLinkRecord "l" "f" "u" none 0) 1 =
        false :=
  never_duration_link_invalid_after_creation "l" "f" "u" 0 1 (by decide)

/-- C2: the claim says a successful resolution never returns the stored
`blobUrl`.  The code returns the raw file record, so the payload carries
the stored blob URL (itself a long-lived signed SAS URL from upload time)
verbatim. -/
theorem resolve_payload_contains_stored_blob_url :
    (getFileByShareLink demoStore 0 false "l1").map
        (fun p => p.1.file.blobUrl) = .ok demoBlobUrl ∧
      strIncludes demoBlobUrl ".blob.core.windows.net" = true ∧
      strIncludes demoBlobUrl "sig=" = true := ⟨rfl, by decide, by decide⟩

/-- C4 counterexample: at the boundary instant `now = expiresAt` the code
declares the capability valid (`expiry < now` is false), while the claim's
predicate `now < expiresAt` declares it invalid. -/
theorem validate_boundary_instant_is_valid :
    isShareLinkValid demoLink 86400000 = true ∧
      specValidate false (some 86400000) 86400000 = false := by decide

/-- C4 amended: `isShareLinkValid` is a pure function of
`(revoked, expiresAt, now)` and returns valid iff not revoked and
(`expiresAt` absent or `now ≤ expiresAt`); at the boundary instant the
capability is still valid. -/
theorem validate_verdict_characterization (sl : ShareLink) (now : Int) :
    isShareLinkValid sl now =
      (!sl.isRevoked &&
        match sl.expiryDate with
        | none => true
        | some e => decide (now ≤ e)) := by
  rcases sl with ⟨_, _, _, ed, _, _, rev, _⟩
  cases rev <;> cases ed <;> simp [isShareLinkValid]
  rw [← decide_not, decide_eq_decide]
  omega

/-- C7 counterexample: with 30 minutes (1800000 ms) left until the
capability expires, the code grants a one-hour credential (floor), which
exceeds `min(requestedLifetime, storageCeiling, timeRemaining)`. -/
theorem sas_floor_exceeds_remaining_time :
    sasExpirationHours 1800000 0 * msPerHour = 3600000 ∧
      (1800000 : Int) - 0 < 3600000 := by decide

/-- C7 amended: the granted SAS lifetime is
`min(max(1, floor(remainingHours)), 24)` hours: always at least one hour
(never zero or negative), never more than the 24-hour storage ceiling, and
bounded by the remaining time until `expiresAt` whenever at least one hour
remains (below one hour, the one-hour floor may exceed the remaining
time). -/
theorem sas_lifetime_bounds (expiry now : Int) :
    1 ≤ sasExpirationHours expiry now ∧
      sasExpirationHours expiry now ≤ 24 ∧
      (msPerHour ≤ expiry - now →
        sasExpirationHours expiry now * msPerHour ≤ expiry - now) := by
  unfold sasExpirationHours msPerHour
  refine ⟨le_min (le_max_left 1 _) (by decide), min_le_right _ _, ?_⟩
  intro hrem
  rw [Int.fdiv_eq_ediv _ (by decide)]
  have hq1 : 1 ≤ (expiry - now) / 3600000 :=
    (Int.le_ediv_iff_mul_le (by decide)).2 (by simpa using hrem)
  rw [max_eq_right hq1]
  have hmul : (expiry - now) / 3600000 * 3600000 ≤ expiry - now :=
    Int.ediv_mul_le _ (by decide)
  calc min ((expiry - now) / 3600000) 24 * 3600000
      ≤ (expiry - now) / 3600000 * 3600000 := by
        exact mul_le_mul_of_nonneg_right (min_le_left _ _) (by decide)
    _ ≤ expiry - now := hmul

/-- Witness for C7: two hours remaining at `now = 0` gives a two-hour
credential, within every bound. -/
theorem sas_lifetime_bounds_witness :
    1 ≤ sasExpirationHours 7200000 0 ∧
      sasExpirationHours 7200000 0 ≤ 24 ∧
      (msPerHour ≤ 7200000 - 0 →
        sasExpirationHours 7200000 0 * msPerHour ≤ 7200000 - 0) :=
  sas_lifetime_bounds 7200000 0

/-- C3 counterexample: resolving a revoked capability and resolving an
expired one produce the same error message and the same HTTP 410 status —
the two causes are collapsed, not distinguishable. -/
theorem revoked_and_expired_collapse_to_one_error :
    getFileByShareLink revokedStore 100 false "l1" =
        .error "Share link is expired or revoked" ∧
      getFileByShareLink expiredStore 100 false "l1" =
        .error "Share link is expired or revoked" ∧
      shareAccessStatus "Share link is expired or revoked" = 410 :=
  ⟨rfl, rfl, rfl⟩

/-- C3 amended: every capability that fails validation at resolution time
makes the resolve operation fail with the single generic error
`'Share link is expired or revoked'`, whatever the cause. -/
theorem invalid_link_resolution_error (s : Store) (now : Int) (b : Bool)
    (linkId : String) (sl : ShareLink)
    (hfind : getShareLinkById s linkId = some sl)
    (hinvalid : isShareLinkValid sl now = false) :
    getFileByShareLink s now b linkId =
      .error "Share link is expired or revoked" := by
  unfold getFileByShareLink
  rw [hfind]
  simp [hinvalid]

/-- Witness for C3: the expired demonstration link resolves to the generic
error. -/
theorem invalid_link_resolution_error_witness :
    getFileByShareLink expiredStore 100 true "l1" =
      .error "Share link is expired or revoked" :=
  invalid_link_resolution_error expiredStore 100 true "l1"
    { demoLink with expiryDate := some 10 } rfl rfl

/-- Helper: erasing the first record with an id that at most one record
carries leaves no record with that id. -/
theorem find?_eraseFile (fileId : String) :
    ∀ fs : List FileRec,
    fs.countP (fun f => f.fileId = fileId) ≤ 1 →
    (eraseFile fs fileId).find? (fun f => f.fileId = fileId) = none := by
  intro fs
  induction fs with
  | nil => intro _; rfl
  | cons a rest ih =>
    intro h
    by_cases ha : a.fileId = fileId
    · rw [eraseFile, if_pos ha]
      rw [List.countP_cons_of_pos _ _ (by simp [ha])] at h
      rw [List.find?_eq_none]
      intro x hx
      have : rest.countP (fun f => decide (f.fileId = fileId)) = 0 := by omega
      simpa using List.countP_eq_zero.mp this x hx
    · rw [eraseFile, if_neg ha]
      rw [List.find?_cons_of_neg _ (by simp [ha])]
      refine ih ?_
      rwa [List.countP_cons_of_neg _ _ (by simp [ha])] at h

/-- Helper: deleting the file record of an id that at most one record
carries makes that id unresolvable. -/
theorem getFileById_hardDeleteFile (s : Store) (fileId : String)
    (hone : s.files.countP (fun f => f.fileId = fileId) ≤ 1) :
    getFileById (hardDeleteFile s fileId) fileId = none := by
  unfold getFileById hardDeleteFile
  exact find?_eraseFile fileId s.files hone

/-- Helper: a successful resolution found an entry for the payload's
`fileId` in the file store. -/
theorem getFileByShareLink_ok_file_exists (s : Store) (now : Int) (b : Bool)
    (linkId : String) (r : ShareAccessResult) (s₂ : Store)
    (h : getFileByShareLink s now b linkId = .ok (r, s₂)) :
    (getFileById s r.shareLink.fileId).isSome = true := by
  unfold getFileByShareLink at h
  cases hsl : getShareLinkById s linkId with
  | none => simp [hsl] at h
  | some sl =>
    simp only [hsl] at h
    by_cases hv : isShareLinkValid sl now = true
    · simp only [hv, if_true] at h
      cases hf : getFileById s sl.fileId with
      | none => simp [hf] at h
      | some file =>
        simp only [hf] at h
        by_cases hst : file.status = "active"
        · simp only [hst, if_true] at h
          cases he : sl.expiryDate with
          | none => simp [he] at h
          | some e =>
            simp only [he] at h
            cases b with
            | true => simp at h
            | false =>
              simp only [Bool.false_eq_true, if_false] at h
              cases hi : incrementAccessCount s linkId with
              | error msg => simp [hi] at h
              | ok s₃ =>
                simp only [hi] at h
                obtain ⟨hr, -⟩ := Prod.mk.injEq .. |>.mp (Except.ok.inj h)
                rw [← hr]
                simp [hf]
        · simp [hst] at h
    · simp [hv] at h

/-- C5 counterexample: when the store fails to delete link `l1` during the
cascade, `deleteFile` fails outright: the file record is still present and
`l1` is still resolvable afterwards — the claim's "the file deletion still
proceeds and succeeds" and "zero resolvable capabilities remain" both fail. -/
theorem cascade_failure_aborts_file_deletion :
    deleteFile demoStore ["l1"] "f1" "u1" =
        (.error "Failed to delete share links for file", demoStore) ∧
      getFileById demoStore "f1" = some demoFile ∧
      (getFileByShareLink demoStore 0 false "l1").map
        (fun p => p.1.shareLink.linkId) = .ok "l1" :=
  ⟨rfl, rfl, rfl⟩

/-- C5 amended: the cascade enumerates only the unrevoked capabilities of
the file, and a failing capability deletion aborts the file deletion (the
error propagates).  When `deleteFile` does succeed — on a store holding at
most one file record per id, as creation with fresh uuid keys maintains —
the file record is gone and zero resolvable capabilities remain for it:
any surviving capability fails resolution at the file-existence check. -/
theorem successful_delete_leaves_no_resolvable_links
    (s : Store) (failing : List String) (fileId userId : String) (s₁ : Store)
    (hone : s.files.countP (fun f => f.fileId = fileId) ≤ 1)
    (h : deleteFile s failing fileId userId = (.ok (), s₁)) :
    getFileById s₁ fileId = none ∧
      ∀ linkId now b r s₂,
        getFileByShareLink s₁ now b linkId = .ok (r, s₂) →
        r.shareLink.fileId ≠ fileId := by
  have hnone : getFileById s₁ fileId = none := by
    unfold deleteFile at h
    cases hfile : getFileById s fileId with
    | none => simp [hfile] at h
    | some file =>
      simp only [hfile] at h
      by_cases hu : file.userId = userId
      · simp only [hu, if_true] at h
        rcases hcas : deleteShareLinksByFileId s failing fileId with ⟨r, s₃⟩
        simp only [hcas] at h
        cases r with
        | error e => simp at h
        | ok u =>
          obtain ⟨-, hs⟩ := Prod.mk.injEq .. |>.mp h
          rw [← hs]
          apply getFileById_hardDeleteFile
          have hfiles : s₃.files = s.files :=
            (congrArg (fun p => p.2.files) hcas).symm
          rw [hfiles]
          exact hone
      · simp [hu] at h
  refine ⟨hnone, ?_⟩
  intro linkId now b r s₂ hres heq
  have hf := getFileByShareLink_ok_file_exists s₁ now b linkId r s₂ hres
  rw [heq, hnone] at hf
  cases hf

/-- Witness for C5: deleting `f1` from the demonstration store with no
injected failures empties the store, after which nothing resolves to it. -/
theorem successful_delete_leaves_no_resolvable_links_witness :
    getFileById { links := [], files := [] } "f1" = none ∧
      ∀ linkId now b r s₂,
        getFileByShareLink ({ links := [], files := [] } : Store) now b
          linkId = .ok (r, s₂) → r.shareLink.fileId ≠ "f1" :=
  successful_delete_leaves_no_resolvable_links demoStore [] "f1" "u1"
    { links := [], files := [] } (by decide) rfl

/-- C6 counterexample: with capability validation, the file-existence check
and credential minting all passed, a failing access-accounting store call
makes the whole resolution fail — the credential is not returned. -/
theorem accounting_failure_blocks_resolution :
    getFileByShareLink demoStore 0 true "l1" =
      .error "Failed to increment access count" := rfl

/-- C6 amended: whenever a resolution would succeed, injecting a failure
into the access-accounting step makes the resolution fail with the
accounting error instead of returning the minted credential. -/
theorem accounting_failure_propagates (s : Store) (now : Int)
    (linkId : String)
    (h : (getFileByShareLink s now false linkId).isOk = true) :
    getFileByShareLink s now true linkId =
      .error "Failed to increment access count" := by
  unfold getFileByShareLink at h ⊢
  cases hsl : getShareLinkById s linkId with
  | none => simp [hsl, Except.isOk, Except.toBool] at h
  | some sl =>
    simp only [hsl] at h ⊢
    by_cases hv : isShareLinkValid sl now = true
    · simp only [hv, if_true] at h ⊢
      cases hf : getFileById s sl.fileId with
      | none => simp [hf, Except.isOk, Except.toBool] at h
      | some file =>
        simp only [hf] at h ⊢
        by_cases hst : file.status = "active"
        · simp only [hst, if_true] at h ⊢
          cases he : sl.expiryDate with
          | none => simp [he, Except.isOk, Except.toBool] at h
          | some e => simp [he]
        · simp [hst, Except.isOk, Except.toBool] at h
    · simp [hv, Except.isOk, Except.toBool] at h

/-- Witness for C6: the demonstration store's resolution succeeds, and with
the injected accounting failure it returns the accounting error. -/
theorem accounting_failure_propagates_witness :
    getFileByShareLink demoStore 0 true "l1" =
      .error "Failed to increment access count" :=
  accounting_failure_propagates demoStore 0 "l1" rfl

/-- Helper: a found share link carries the queried id. -/
theorem getShareLinkById_some_id (s : Store) (linkId : String)
    (sl : ShareLink) (h : getShareLinkById s linkId = some sl) :
    sl.linkId = linkId := by
  unfold getShareLinkById at h
  simpa using List.find?_some h

/-- Helper: after replacing the first record with a given id, that id
resolves to the replacement. -/
theorem find?_replaceLink (nl : ShareLink) (linkId : String)
    (hid : nl.linkId = linkId) :
    ∀ ls : List ShareLink,
    (ls.find? (fun l => l.linkId = linkId)).isSome = true →
    (replaceLink ls nl).find? (fun l => l.linkId = linkId) = some nl := by
  intro ls
  induction ls with
  | nil => simp [List.find?]
  | cons a rest ih =>
    intro hfind
    by_cases ha : a.linkId = nl.linkId
    · rw [replaceLink, if_pos ha]
      exact List.find?_cons_of_pos _ (by simp [hid])
    · have ha2 : ¬(a.linkId = linkId) := fun hc => ha (hc.trans hid.symm)
      rw [replaceLink, if_neg ha]
      rw [List.find?_cons_of_neg _ (by simp [ha2])] at hfind ⊢
      exact ih hfind

/-- Helper: replacing the same record twice equals replacing it once. -/
theorem replaceLink_self (ls : List ShareLink) (nl : ShareLink) :
    replaceLink (replaceLink ls nl) nl = replaceLink ls nl := by
  induction ls with
  | nil => rfl
  | cons a rest ih =>
    by_cases ha : a.linkId = nl.linkId
    · simp [replaceLink, ha]
    · simp [replaceLink, ha, ih]

/-- C8: revoke is idempotent-safe — after an owner's successful revoke, a
second owner revoke succeeds with the state unchanged; a non-owner's revoke
fails with `Unauthorized` against the live and against the already-revoked
record, leaving the state unchanged; revoking an absent id fails with
`NotFound`. -/
theorem revoke_lifecycle (s s₁ : Store) (linkId owner other : String)
    (sl : ShareLink)
    (hfind : getShareLinkById s linkId = some sl)
    (howner : sl.userId = owner) (hother : other ≠ owner)
    (hs₁ : revokeShareLink s linkId owner = (.ok (), s₁)) :
    revokeShareLink s₁ linkId owner = (.ok (), s₁) ∧
      revokeShareLink s linkId other = (.error "Unauthorized access", s) ∧
      revokeShareLink s₁ linkId other = (.error "Unauthorized access", s₁) ∧
      ∀ s₂ lid, getShareLinkById s₂ lid = none →
        revokeShareLink s₂ lid owner = (.error "Share link not found", s₂) := by
  have hslid : sl.linkId = linkId := getShareLinkById_some_id s linkId sl hfind
  have hisSome : (s.links.find? (fun l => l.linkId = linkId)).isSome = true := by
    unfold getShareLinkById at hfind
    simp [hfind]
  set rsl : ShareLink := { sl with isRevoked := true } with hrsl
  have hs₁eq : s₁ = { s with links := replaceLink s.links rsl } := by
    unfold revokeShareLink repoRevokeShareLink at hs₁
    simp only [hfind] at hs₁
    rw [if_pos howner] at hs₁
    exact ((Prod.mk.injEq .. |>.mp hs₁).2).symm
  have hfind₁ : getShareLinkById s₁ linkId = some rsl := by
    rw [hs₁eq]
    unfold getShareLinkById
    exact find?_replaceLink rsl linkId hslid s.links hisSome
  refine ⟨?_, ?_, ?_, ?_⟩
  · unfold revokeShareLink repoRevokeShareLink
    simp only [hfind₁]
    rw [if_pos (show rsl.userId = owner from howner)]
    have hrepl : replaceLink s₁.links rsl = s₁.links := by
      rw [hs₁eq]
      exact replaceLink_self s.links rsl
    rw [show ({ rsl with isRevoked := true } : ShareLink) = rsl from rfl]
    rw [hrepl]
  · unfold revokeShareLink
    simp only [hfind]
    rw [if_neg (fun hc : sl.userId = other => hother (howner ▸ hc.symm ▸ rfl))]
  · unfold revokeShareLink
    simp only [hfind₁]
    rw [if_neg (fun hc : rsl.userId = other => hother (howner ▸ hc.symm ▸ rfl))]
  · intro s₂ lid hnone
    unfold revokeShareLink
    simp only [hnone]

/-- Witness for C8: the demonstration owner revokes `l1` twice (second is a
no-op), the stranger `u2` is rejected against both states, and an absent id
is `NotFound`. -/
theorem revoke_lifecycle_witness :
    revokeShareLink revokedStore "l1" "u1" = (.ok (), revokedStore) ∧
      revokeShareLink demoStore "l1" "u2" =
        (.error "Unauthorized access", demoStore) ∧
      revokeShareLink revokedStore "l1" "u2" =
        (.error "Unauthorized access", revokedStore) ∧
      ∀ s₂ lid, getShareLinkById s₂ lid = none →
        revokeShareLink s₂ lid "u1" = (.error "Share link not found", s₂) :=
  revoke_lifecycle demoStore revokedStore "l1" "u1" "u2" demoLink rfl rfl
    (by decide) rfl

/-- The provenance-and-monotonicity relation of C9 between a record before
and after a mutation: the identity fields are unchanged, `isRevoked` can
only move false→true, and `accessCount` never decreases. -/
def preservesProvenance (a b : ShareLink) : Prop :=
  a.linkId = b.linkId ∧ a.fileId = b.fileId ∧ a.userId = b.userId ∧
    a.createdDate = b.createdDate ∧ a.expiryDate = b.expiryDate ∧
    (a.isRevoked = true → b.isRevoked = true) ∧
    a.accessCount ≤ b.accessCount

/-- `preservesProvenance` is reflexive. -/
theorem preservesProvenance_refl (a : ShareLink) : preservesProvenance a a :=
  ⟨rfl, rfl, rfl, rfl, rfl, fun h => h, le_refl _⟩

/-- Helper: replacing the first matching record relates the lists pointwise
whenever the replaced record relates to its replacement. -/
theorem forall₂_replaceLink (nl : ShareLink) :
    ∀ ls : List ShareLink,
    (∀ sl : ShareLink, ls.find? (fun l => l.linkId = nl.linkId) = some sl →
      preservesProvenance sl nl) →
    List.Forall₂ preservesProvenance ls (replaceLink ls nl) := by
  intro ls
  induction ls with
  | nil => intro _; exact .nil
  | cons a rest ih =>
    intro h
    by_cases ha : a.linkId = nl.linkId
    · rw [replaceLink, if_pos ha]
      refine .cons (h a ?_)
        (List.forall₂_same.2 fun x _ => preservesProvenance_refl x)
      exact List.find?_cons_of_pos _ (by simp [ha])
    · rw [replaceLink, if_neg ha]
      refine .cons (preservesProvenance_refl a) (ih fun sl hsl => h sl ?_)
      rw [List.find?_cons_of_neg _ (by simp [ha])]
      exact hsl

/-- C9: both mutating repo operations — revoke and record-access — leave
every record's `linkId`, `fileId`, `userId`, `createdDate` and `expiryDate`
unchanged, move `isRevoked` only false→true, and never decrease
`accessCount`. -/
theorem mutations_preserve_provenance (s : Store) (linkId : String) :
    (∀ s₁, repoRevokeShareLink s linkId = .ok s₁ →
      List.Forall₂ preservesProvenance s.links s₁.links) ∧
      (∀ s₂, incrementAccessCount s linkId = .ok s₂ →
        List.Forall₂ preservesProvenance s.links s₂.links) := by
  constructor
  · intro s₁ h
    unfold repoRevokeShareLink at h
    cases hsl : getShareLinkById s linkId with
    | none => simp [hsl] at h
    | some sl =>
      simp only [hsl] at h
      obtain rfl := (Except.ok.inj h).symm
      have hslid : sl.linkId = linkId :=
        getShareLinkById_some_id s linkId sl hsl
      refine forall₂_replaceLink _ s.links fun sl2 hsl2 => ?_
      have : sl2 = sl := by
        unfold getShareLinkById at hsl
        rw [show ({ sl with isRevoked := true } : ShareLink).linkId = linkId
          from hslid] at hsl2
        rw [hsl] at hsl2
        exact (Option.some.inj hsl2).symm
      subst this
      exact ⟨rfl, rfl, rfl, rfl, rfl, fun _ => rfl, le_refl _⟩
  · intro s₂ h
    unfold incrementAccessCount at h
    cases hsl : getShareLinkById s linkId with
    | none => simp [hsl] at h
    | some sl =>
      simp only [hsl] at h
      obtain rfl := (Except.ok.inj h).symm
      have hslid : sl.linkId = linkId :=
        getShareLinkById_some_id s linkId sl hsl
      refine forall₂_replaceLink _ s.links fun sl2 hsl2 => ?_
      have : sl2 = sl := by
        unfold getShareLinkById at hsl
        rw [show ({ sl with accessCount := sl.accessCount + 1 } :
          ShareLink).linkId = linkId from hslid] at hsl2
        rw [hsl] at hsl2
        exact (Option.some.inj hsl2).symm
      subst this
      exact ⟨rfl, rfl, rfl, rfl, rfl, fun h => h, Nat.le_succ _⟩

/-- Witness for C9: revoking and recording an access on the demonstration
store each relate the before and after record lists pointwise. -/
theorem mutations_preserve_provenance_witness :
    List.Forall₂ preservesProvenance demoStore.links revokedStore.links ∧
      List.Forall₂ preservesProvenance demoStore.links
        incrementedStore.links :=
  ⟨(mutations_preserve_provenance demoStore "l1").1 revokedStore rfl,
   (mutations_preserve_provenance demoStore "l1").2 incrementedStore rfl⟩

/-- C10: creation never validates `expirationDays` against the set
`{1, 7, 30}` — it proceeds for every numeric value; a value of 0 is
falsy and yields exactly the record of an absent duration; a negative value
yields an `expiresAt` in the past, no stored retention hint (`ttl`), and a
capability already expired at its creation instant. -/
theorem creation_duration_unvalidated (s : Store)
    (newLinkId fileId userId : String) (file : FileRec) (now d : Int)
    (hfile : getFileById s fileId = some file)
    (howner : file.userId = userId) (hactive : file.status = "active") :
    serviceCreateShareLink s newLinkId fileId userId (some d) now =
        .ok (createShareLinkRecord newLinkId fileId userId (some d) now,
          { s with links := s.links ++
              [createShareLinkRecord newLinkId fileId userId (some d) now] }) ∧
      createShareLinkRecord newLinkId fileId userId (some 0) now =
        createShareLinkRecord newLinkId fileId userId none now ∧
      (d < 0 →
        (createShareLinkRecord newLinkId fileId userId
            (some d) now).expiryDate = some (now + d * msPerDay) ∧
          now + d * msPerDay < now ∧
          (createShareLinkRecord newLinkId fileId userId (some d) now).ttl =
            none ∧
          isShareLinkValid
            (createShareLinkRecord newLinkId fileId userId (some d) now)
            now = false) := by
  refine ⟨?_, rfl, ?_⟩
  · unfold serviceCreateShareLink
    simp [hfile, howner, hactive]
  · intro hd
    have hd0 : d ≠ 0 := by omega
    have hexp : calculateExpiryDate (some d) now =
        some (now + d * msPerDay) := by
      simp only [calculateExpiryDate]
      rw [if_neg hd0]
    have hneg : now + d * msPerDay < now := by
      have hms : (0 : Int) < msPerDay := by decide
      have := mul_neg_of_neg_of_pos hd hms
      omega
    have httl : calculateTTL (some (now + d * msPerDay)) now = none := by
      have h1 : Int.fdiv (now + d * msPerDay - now) 1000 < 0 := by
        rw [show now + d * msPerDay - now = d * msPerDay by ring]
        rw [Int.fdiv_eq_ediv _ (by decide)]
        exact Int.ediv_neg'
          (mul_neg_of_neg_of_pos hd (by decide)) (by decide)
      simp only [calculateTTL]
      rw [if_neg (by omega)]
    refine ⟨?_, hneg, ?_, ?_⟩
    · simp [createShareLinkRecord, hexp]
    · simp [createShareLinkRecord, hexp, httl]
    · simp [createShareLinkRecord, isShareLinkValid, hexp, hneg]

/-- Witness for C10: creating a share link for the demonstration file with
`expirationDays = -2` succeeds, and the resulting capability is already
expired at creation with no retention hint. -/
theorem creation_duration_unvalidated_witness :
    serviceCreateShareLink demoStore "l9" "f1" "u1" (some (-2)) 0 =
        .ok (createShareLinkRecord "l9" "f1" "u1" (some (-2)) 0,
          { demoStore with links := demoStore.links ++
              [createShareLinkRecord "l9" "f1" "u1" (some (-2)) 0] }) ∧
      createShareLinkRecord "l9" "f1" "u1" (some 0) 0 =
        createShareLinkRecord "l9" "f1" "u1" none 0 ∧
      ((-2 : Int) < 0 →
        (createShareLinkRecord "l9" "f1" "u1" (some (-2)) 0).expiryDate =
            some (0 + -2 * msPerDay) ∧
          0 + -2 * msPerDay < 0 ∧
          (createShareLinkRecord "l9" "f1" "u1" (some (-2)) 0).ttl = none ∧
          isShareLinkValid
            (createShareLinkRecord "l9" "f1" "u1" (some (-2)) 0) 0 =
            false) :=
  creation_duration_unvalidated demoStore "l9" "f1" "u1" demoFile 0 (-2)
    rfl rfl rfl

end CloudPix
